import Mathlib

/-!
Shallow embedding of the trading-execution and capital-deployment core of the
shark-quant-trader repository, together with proofs about the behaviour of the
embedded operations.

Conventions:
* Python floats are modelled as rationals (`ℚ`); the one statistic whose value
  involves a square root (`calculate_rolling_sharpe`) lands in `ℝ`.
* `datetime` values are modelled as integer day/second counts; the current
  wall-clock time is passed explicitly to every operation that reads it.
* Python dicts holding numeric values are modelled as insertion-ordered
  association lists; `dict.get(k, d)` becomes `lookupD`.
* Mutating methods become functions from state to state (plus their returned
  value); methods that raise on invalid input return `Option`.
* Interpolated numbers inside human-readable message strings are rendered with
  `toString` instead of Python percent formatting; only the text matters here.
-/

namespace SharkQuant

/-! ## Capital transition manager (src/live_trading/transition.py) -/

/-- `CapitalStage` dataclass. -/
structure CapitalStage where
  name : String
  capital_pct : ℚ
  duration_weeks : ℕ
  loss_limit : ℚ
deriving Repr, DecidableEq

/-- `TransitionEvent` dataclass (src/live_trading/models.py); the timestamp is
an abstract integer clock value. -/
structure TransitionEvent where
  timestamp : ℤ
  action : String
  from_stage : ℕ
  to_stage : ℕ
  reason : String
deriving Repr, DecidableEq

/-- `CapitalTransitionManager.DEFAULT_STAGES`. -/
def DEFAULT_STAGES : List CapitalStage :=
  [⟨"Stage 1", 10/100, 4, 5/100⟩,
   ⟨"Stage 2", 25/100, 4, 5/100⟩,
   ⟨"Stage 3", 50/100, 2, 5/100⟩,
   ⟨"Stage 4", 1, 0, 10/100⟩]

/-- `ROLLBACK_TRIGGERS["daily_loss_threshold"]`. -/
def daily_loss_threshold : ℚ := 3/100

/-- `ROLLBACK_TRIGGERS["cumulative_dd_threshold"]`. -/
def cumulative_dd_threshold : ℚ := 10/100

/-- `ROLLBACK_TRIGGERS["system_failure_count"]`. -/
def system_failure_limit : ℕ := 2

/-- Mutable state of a `CapitalTransitionManager` instance. -/
structure ManagerState where
  total_capital : ℚ
  stages : List CapitalStage
  current_stage : ℕ
  stage_start_date : ℤ
  stage_start_nav : ℚ
  system_failure_count : ℕ
  transition_log : List TransitionEvent
deriving Repr, DecidableEq

/-- `CapitalTransitionManager.__init__` (with `stages` already defaulted). -/
def initManager (total_capital : ℚ) (stages : List CapitalStage) (now : ℤ) :
    ManagerState :=
  { total_capital := total_capital
    stages := stages
    current_stage := 0
    stage_start_date := now
    stage_start_nav := total_capital
    system_failure_count := 0
    transition_log := [] }

/-- `current_stage_info` property; Python indexing is total here because the
stage pointer stays in range, so an out-of-range read is given a dummy stage. -/
def ManagerState.current_stage_info (s : ManagerState) : CapitalStage :=
  s.stages.getD s.current_stage ⟨"", 0, 0, 0⟩

/-- `get_days_in_stage` (the `stage_start_date` is always set by `__init__`). -/
def get_days_in_stage (s : ManagerState) (now : ℤ) : ℤ :=
  now - s.stage_start_date

/-- `_log_transition`: note the source computes `to_stage` with a conditional
whose two arms are both `self.current_stage`; the conditional is kept as
written. -/
def log_transition (s : ManagerState) (now : ℤ) (action reason : String) :
    ManagerState :=
  { s with transition_log := s.transition_log ++
      [{ timestamp := now
         action := action
         from_stage := s.current_stage
         to_stage := if action = "ADVANCE" then s.current_stage else s.current_stage
         reason := reason }] }

/-- `can_advance_stage`. -/
def can_advance_stage (s : ManagerState) (now : ℤ) (current_nav : ℚ) :
    Bool × String :=
  let stage := s.current_stage_info
  if s.current_stage ≥ s.stages.length - 1 then
    (false, "Already at final stage (100%)")
  else
    let required_days : ℤ := stage.duration_weeks * 7
    let days_in_stage := get_days_in_stage s now
    if required_days > 0 ∧ days_in_stage < required_days then
      (false, "Need " ++ toString (required_days - days_in_stage) ++
        " more days in current stage")
    else if s.stage_start_nav > 0 ∧
        (current_nav - s.stage_start_nav) / s.stage_start_nav < -stage.loss_limit then
      (false, "Stage loss " ++
        toString ((current_nav - s.stage_start_nav) / s.stage_start_nav) ++
        " exceeds limit")
    else
      (true, "All conditions met for advancement")

/-- `advance_stage`. -/
def advance_stage (s : ManagerState) (now : ℤ) (current_nav : ℚ) :
    (Bool × String) × ManagerState :=
  let check := can_advance_stage s now current_nav
  if check.1 = false then ((false, check.2), s)
  else if s.current_stage < s.stages.length - 1 then
    let s1 := { s with current_stage := s.current_stage + 1
                       stage_start_date := now
                       stage_start_nav := current_nav }
    let s2 := log_transition s1 now "ADVANCE"
      ("Advanced to " ++ s1.current_stage_info.name)
    ((true, "Advanced to " ++ s1.current_stage_info.name), s2)
  else ((false, "Already at final stage"), s)

/-- `rollback_stage`. -/
def rollback_stage (s : ManagerState) (now : ℤ) :
    (Bool × String) × ManagerState :=
  if s.current_stage > 0 then
    let s1 := { s with current_stage := s.current_stage - 1
                       stage_start_date := now }
    let s2 := log_transition s1 now "ROLLBACK"
      ("Rolled back to " ++ s1.current_stage_info.name)
    ((true, "Rolled back to " ++ s1.current_stage_info.name), s2)
  else ((false, "Already at Stage 1"), s)

/-- `check_rollback_triggers`. -/
def check_rollback_triggers (s : ManagerState) (now : ℤ)
    (daily_return cumulative_dd : ℚ) : Option String × ManagerState :=
  if daily_return < -daily_loss_threshold then
    (some "EVALUATE",
     log_transition s now "EVALUATE" "Daily loss exceeded threshold")
  else if cumulative_dd > cumulative_dd_threshold then
    (some "ROLLBACK_STAGE",
     log_transition s now "ROLLBACK_STAGE" "Cumulative DD exceeded threshold")
  else if s.system_failure_count ≥ system_failure_limit then
    (some "ROLLBACK_TO_PAPER",
     log_transition s now "ROLLBACK_TO_PAPER" "System failures exceeded limit")
  else (none, s)

/-- `record_system_failure`. -/
def record_system_failure (s : ManagerState) : ManagerState :=
  { s with system_failure_count := s.system_failure_count + 1 }

/-- `reset_system_failures`. -/
def reset_system_failures (s : ManagerState) : ManagerState :=
  { s with system_failure_count := 0 }

/-- One externally triggered operation on a `CapitalTransitionManager`. -/
inductive MgrStep where
  | advance (now : ℤ) (current_nav : ℚ)
  | rollback (now : ℤ)
  | checkTriggers (now : ℤ) (daily_return cumulative_dd : ℚ)
  | recordFailure
  | resetFailures

/-- Apply one operation to the manager state. -/
def mgrStep (s : ManagerState) : MgrStep → ManagerState
  | .advance now nav => (advance_stage s now nav).2
  | .rollback now => (rollback_stage s now).2
  | .checkTriggers now dr dd => (check_rollback_triggers s now dr dd).2
  | .recordFailure => record_system_failure s
  | .resetFailures => reset_system_failures s

/-- Run a sequence of operations from a starting state. -/
def runManager (s : ManagerState) (steps : List MgrStep) : ManagerState :=
  steps.foldl mgrStep s

lemma log_transition_from_eq_to (s : ManagerState) (now : ℤ)
    (action reason : String)
    (h : ∀ e ∈ s.transition_log, e.from_stage = e.to_stage) :
    ∀ e ∈ (log_transition s now action reason).transition_log,
      e.from_stage = e.to_stage := by
  intro e he
  simp only [log_transition, List.mem_append, List.mem_singleton] at he
  rcases he with he | he
  · exact h e he
  · subst he
    simp

lemma mgrStep_from_eq_to (s : ManagerState) (st : MgrStep)
    (h : ∀ e ∈ s.transition_log, e.from_stage = e.to_stage) :
    ∀ e ∈ (mgrStep s st).transition_log, e.from_stage = e.to_stage := by
  cases st with
  | advance now nav =>
    simp only [mgrStep, advance_stage]
    split
    · exact h
    · split
      · exact log_transition_from_eq_to _ _ _ _ h
      · exact h
  | rollback now =>
    simp only [mgrStep, rollback_stage]
    split
    · exact log_transition_from_eq_to _ _ _ _ h
    · exact h
  | checkTriggers now dr dd =>
    simp only [mgrStep, check_rollback_triggers]
    split
    · exact log_transition_from_eq_to _ _ _ _ h
    · split
      · exact log_transition_from_eq_to _ _ _ _ h
      · split
        · exact log_transition_from_eq_to _ _ _ _ h
        · exact h
  | recordFailure => exact h
  | resetFailures => exact h

lemma runManager_from_eq_to (s : ManagerState) (steps : List MgrStep)
    (h : ∀ e ∈ s.transition_log, e.from_stage = e.to_stage) :
    ∀ e ∈ (runManager s steps).transition_log, e.from_stage = e.to_stage := by
  induction steps generalizing s with
  | nil => exact h
  | cons st rest ih => exact ih (mgrStep s st) (mgrStep_from_eq_to s st h)

/-- C10: every transition event ever appended to the transition log of a
`CapitalTransitionManager` (across any sequence of advances, rollbacks,
trigger checks, failure recordings and resets) has `from_stage` equal to
`to_stage`: `_log_transition` records the stage index current at logging time
in both fields, and both `advance_stage` and `rollback_stage` move the stage
pointer before logging. -/
theorem transition_log_from_eq_to (total_capital : ℚ)
    (stages : List CapitalStage) (now0 : ℤ) (steps : List MgrStep) :
    ∀ e ∈ (runManager (initManager total_capital stages now0) steps).transition_log,
      e.from_stage = e.to_stage := by
  apply runManager_from_eq_to
  intro e he
  simp [initManager] at he

/-- The single event logged by the concrete run used in the C10 witness. -/
def c10Event : TransitionEvent :=
  { timestamp := 1
    action := "EVALUATE"
    from_stage := 0
    to_stage := 0
    reason := "Daily loss exceeded threshold" }

/-- C10 witness: a concrete run whose log contains `c10Event`, with the theorem
applied to that event. -/
theorem transition_log_from_eq_to_witness :
    c10Event.from_stage = c10Event.to_stage :=
  transition_log_from_eq_to 100000 DEFAULT_STAGES 0
    [MgrStep.checkTriggers 1 (-(5/100)) 0] c10Event
    (by norm_num [runManager, mgrStep, check_rollback_triggers,
      log_transition, initManager, daily_loss_threshold, c10Event])

/-- A manager state with 3 recorded system failures (limit is 2). -/
def c1State : ManagerState :=
  { initManager 100000 DEFAULT_STAGES 0 with system_failure_count := 3 }

/-- C1 counterexample: with 3 recorded failures (limit 2) but a daily return of
−5%, `check_rollback_triggers` returns `EVALUATE`, not `ROLLBACK_TO_PAPER` —
the daily-loss check runs first, so the result is not independent of the
return/drawdown arguments. -/
theorem check_rollback_triggers_not_independent_cex :
    system_failure_limit ≤ c1State.system_failure_count ∧
    (check_rollback_triggers c1State 0 (-(5/100)) 0).1 = some "EVALUATE" ∧
    (check_rollback_triggers c1State 0 (-(5/100)) 0).1 ≠ some "ROLLBACK_TO_PAPER" := by
  refine ⟨by norm_num [c1State, initManager, system_failure_limit], ?_, ?_⟩
  · norm_num [check_rollback_triggers, daily_loss_threshold, c1State, initManager]
  · norm_num [check_rollback_triggers, daily_loss_threshold, c1State, initManager]
    decide

/-- C1 (amended): whenever the recorded failure count is at least the
configured limit AND neither of the two earlier triggers fires (the daily
return is not below −3% and the cumulative drawdown does not exceed 10%),
`check_rollback_triggers` returns `ROLLBACK_TO_PAPER`; in particular it does so
with 3 recorded failures and benign return/drawdown inputs. -/
theorem check_rollback_triggers_failure_limit (s : ManagerState) (now : ℤ)
    (daily_return cumulative_dd : ℚ)
    (hfail : system_failure_limit ≤ s.system_failure_count)
    (hdr : -daily_loss_threshold ≤ daily_return)
    (hdd : cumulative_dd ≤ cumulative_dd_threshold) :
    (check_rollback_triggers s now daily_return cumulative_dd).1 =
      some "ROLLBACK_TO_PAPER" := by
  simp only [check_rollback_triggers]
  rw [if_neg (not_lt.mpr hdr), if_neg (not_lt.mpr hdd), if_pos hfail]

/-- C1 witness: the amended theorem applied at 3 failures, zero daily return
and zero drawdown. -/
theorem check_rollback_triggers_failure_limit_witness :
    (check_rollback_triggers c1State 0 0 0).1 = some "ROLLBACK_TO_PAPER" :=
  check_rollback_triggers_failure_limit c1State 0 0 0
    (by norm_num [c1State, initManager, system_failure_limit])
    (by norm_num [daily_loss_threshold])
    (by norm_num [cumulative_dd_threshold])

/-- C3: `can_advance_stage` returns `false` (with a reason string) whenever
(a) the elapsed time in the stage is a nonnegative number of days below the
stage's required duration, for every NAV; (b) the stage-relative return is
below `−loss_limit` (for a positive stage-start NAV), for every elapsed time;
and (c) the manager sits at the final stage. -/
theorem can_advance_stage_gating :
    (∀ (s : ManagerState) (now : ℤ) (nav : ℚ),
      0 ≤ get_days_in_stage s now →
      get_days_in_stage s now < (s.current_stage_info.duration_weeks : ℤ) * 7 →
      (can_advance_stage s now nav).1 = false) ∧
    (∀ (s : ManagerState) (now : ℤ) (nav : ℚ),
      0 < s.stage_start_nav →
      (nav - s.stage_start_nav) / s.stage_start_nav < -s.current_stage_info.loss_limit →
      (can_advance_stage s now nav).1 = false) ∧
    (∀ (s : ManagerState) (now : ℤ) (nav : ℚ),
      s.current_stage + 1 = s.stages.length →
      (can_advance_stage s now nav).1 = false) := by
  refine ⟨?_, ?_, ?_⟩
  · intro s now nav hd0 hdlt
    simp only [can_advance_stage]
    split
    · rfl
    · rw [if_pos ⟨lt_of_le_of_lt hd0 hdlt, hdlt⟩]
  · intro s now nav hnav hret
    simp only [can_advance_stage]
    split
    · rfl
    · split
      · rfl
      · rw [if_pos ⟨hnav, hret⟩]
  · intro s now nav hfin
    simp only [can_advance_stage]
    rw [if_pos (by omega)]

/-- C3 witness: the three conjuncts applied at concrete states — 5 days into a
4-week stage; a −10% stage return against a 5% loss limit; and the final
stage. -/
theorem can_advance_stage_gating_witness :
    (can_advance_stage (initManager 100000 DEFAULT_STAGES 0) 5 100000).1 = false ∧
    (can_advance_stage
      { initManager 100000 DEFAULT_STAGES 0 with stage_start_date := -100 }
      0 90000).1 = false ∧
    (can_advance_stage
      { initManager 100000 DEFAULT_STAGES 0 with current_stage := 3 }
      0 100000).1 = false := by
  refine ⟨?_, ?_, ?_⟩
  · exact can_advance_stage_gating.1 _ 5 100000
      (by norm_num [get_days_in_stage, initManager])
      (by norm_num [get_days_in_stage, initManager, ManagerState.current_stage_info,
        DEFAULT_STAGES])
  · exact can_advance_stage_gating.2.1 _ 0 90000
      (by norm_num [initManager])
      (by norm_num [initManager, ManagerState.current_stage_info, DEFAULT_STAGES])
  · exact can_advance_stage_gating.2.2 _ 0 100000
      (by norm_num [initManager, DEFAULT_STAGES])

/-! ## Order management system (src/live_trading/order_manager.py) -/

/-- `LiveOrder` dataclass (the fields the OMS splitting logic touches; ids are
abstract counters). -/
structure LiveOrder where
  order_id : ℕ
  symbol : String
  side : String
  quantity : ℚ
  order_type : String
  limit_price : Option ℚ
  reason : String
deriving Repr, DecidableEq

/-- `SPLIT_CONFIG["max_single_order_usd"]`. -/
def max_single_order_usd : ℚ := 50000

/-- `SPLIT_CONFIG["slice_count"]` (the slice cap). -/
def slice_count_cap : ℤ := 5

/-- Python `int()` applied to a rational: truncation toward zero. -/
def pyInt (x : ℚ) : ℤ :=
  if x < 0 then -⌊-x⌋ else ⌊x⌋

/-- `should_split_order`. -/
def should_split_order (o : LiveOrder) (current_price : ℚ) : Bool :=
  if current_price ≤ 0 then false
  else decide (o.quantity * current_price > max_single_order_usd)

/-- The slice count computed inside `split_order`:
`min(SPLIT_CONFIG["slice_count"], int(total_value / max_single_order_usd) + 1)`. -/
def split_slice_count (o : LiveOrder) (current_price : ℚ) : ℤ :=
  min slice_count_cap (pyInt (o.quantity * current_price / max_single_order_usd) + 1)

/-- `split_order`; `counter` is the OMS order counter feeding
`_generate_order_id`, and the limit-price bias factors 1.001/0.999 are exact
rationals here. -/
def split_order (o : LiveOrder) (current_price : ℚ) (counter : ℕ) :
    List LiveOrder :=
  let slice_count := split_slice_count o current_price
  let slice_quantity := o.quantity / slice_count
  (List.range slice_count.toNat).map (fun i =>
    { order_id := counter + i + 1
      symbol := o.symbol
      side := o.side
      quantity := slice_quantity
      order_type := "LIMIT"
      limit_price := some (current_price *
        (if o.side = "BUY" then 1001/1000 else 999/1000))
      reason := o.reason ++ " (slice " ++ toString (i + 1) ++ "/" ++
        toString slice_count.toNat ++ ")" })

/-- A parent order whose notional at price 50000 is exactly 100000. -/
def c4Order : LiveOrder :=
  { order_id := 0, symbol := "BTC", side := "BUY", quantity := 2
    order_type := "MARKET", limit_price := none, reason := "rebalance" }

/-- C4 counterexample: at notional 100000 = 2 × ceiling, the code produces
`min(5, int(100000/50000) + 1) = 3` slices, while the claimed formula
`min(max_slices, ceil(notional/ceiling))` gives 2. -/
theorem split_order_slice_count_cex :
    should_split_order c4Order 50000 = true ∧
    (split_order c4Order 50000 0).length = 3 ∧
    min slice_count_cap ⌈c4Order.quantity * 50000 / max_single_order_usd⌉ = 2 := by
  refine ⟨by norm_num [should_split_order, c4Order, max_single_order_usd], ?_, ?_⟩
  · simp only [split_order, List.length_map, List.length_range]
    norm_num [split_slice_count, pyInt, c4Order, max_single_order_usd,
      slice_count_cap]
    decide
  · norm_num [c4Order, max_single_order_usd, slice_count_cap]

lemma ceil_eq_floor_add_one_of_not_int {x : ℚ} (h : ∀ k : ℤ, x ≠ k) :
    ⌈x⌉ = ⌊x⌋ + 1 := by
  have hfl : (⌊x⌋ : ℚ) < x := lt_of_le_of_ne (Int.floor_le x) (fun he => h ⌊x⌋ he.symm)
  have h1 : ⌈x⌉ ≤ ⌊x⌋ + 1 := Int.ceil_le.mpr (le_of_lt (by exact_mod_cast Int.lt_floor_add_one x))
  have h2 : ⌊x⌋ < ⌈x⌉ := by
    have := lt_of_lt_of_le hfl (Int.le_ceil x)
    exact_mod_cast this
  omega

/-- C4 (amended): for every order that the OMS splits (notional above the
ceiling at a positive price), `split_order` produces exactly
`N = min(max_slices, floor(notional/ceiling) + 1)` equal-quantity LIMIT child
orders; this `N` agrees with the claimed `min(max_slices, ceil(notional/ceiling))`
whenever the notional is not an exact multiple of the ceiling, and is one
larger at exact multiples. -/
theorem split_order_slice_count_formula (o : LiveOrder) (current_price : ℚ)
    (counter : ℕ) (hsplit : should_split_order o current_price = true) :
    (split_order o current_price counter).length =
      (min slice_count_cap
        (⌊o.quantity * current_price / max_single_order_usd⌋ + 1)).toNat ∧
    (∀ sl ∈ split_order o current_price counter,
      sl.order_type = "LIMIT" ∧
      sl.quantity = o.quantity / (split_slice_count o current_price)) ∧
    ((∀ k : ℤ, o.quantity * current_price ≠ k * max_single_order_usd) →
      split_slice_count o current_price =
        min slice_count_cap ⌈o.quantity * current_price / max_single_order_usd⌉) := by
  have hval : max_single_order_usd < o.quantity * current_price := by
    simp only [should_split_order] at hsplit
    by_cases hp : current_price ≤ 0
    · rw [if_pos hp] at hsplit; cases hsplit
    · rw [if_neg hp] at hsplit; exact of_decide_eq_true hsplit
  have hratio1 : (1 : ℚ) < o.quantity * current_price / max_single_order_usd := by
    rw [lt_div_iff₀ (by norm_num [max_single_order_usd])]
    linarith
  have hpy : pyInt (o.quantity * current_price / max_single_order_usd) =
      ⌊o.quantity * current_price / max_single_order_usd⌋ := by
    rw [pyInt, if_neg (by linarith)]
  refine ⟨?_, ?_, ?_⟩
  · simp only [split_order, List.length_map, List.length_range, split_slice_count,
      hpy]
  · intro sl hsl
    simp only [split_order, List.mem_map, List.mem_range] at hsl
    obtain ⟨i, _, rfl⟩ := hsl
    exact ⟨rfl, rfl⟩
  · intro hnd
    have hx : ∀ k : ℤ, o.quantity * current_price / max_single_order_usd ≠ k := by
      intro k he
      exact hnd k
        ((div_eq_iff (by norm_num [max_single_order_usd] :
          max_single_order_usd ≠ 0)).mp he)
    rw [split_slice_count, hpy,
      ceil_eq_floor_add_one_of_not_int hx]

/-- C4 witness: splitting a notional-2,500,000 order (quantity 50 at price
50,000) produces the capped 5 slices, matching the formula, all LIMIT and
equal-quantity. -/
theorem split_order_slice_count_formula_witness :
    (split_order ⟨0, "BTC", "BUY", 50, "MARKET", none, ""⟩ 50000 0).length =
      (min slice_count_cap
        (⌊(50 : ℚ) * 50000 / max_single_order_usd⌋ + 1)).toNat ∧
    (∀ sl ∈ split_order ⟨0, "BTC", "BUY", 50, "MARKET", none, ""⟩ 50000 0,
      sl.order_type = "LIMIT" ∧
      sl.quantity = 50 / (split_slice_count ⟨0, "BTC", "BUY", 50, "MARKET", none, ""⟩ 50000)) := by
  have h := split_order_slice_count_formula ⟨0, "BTC", "BUY", 50, "MARKET", none, ""⟩
    50000 0 (by norm_num [should_split_order, max_single_order_usd])
  exact ⟨h.1, h.2.1⟩

/-- C6: for every order the OMS splits, the child quantities sum exactly to the
parent quantity, the slice count never exceeds the configured cap of 5, and the
$2,500,000-notional scenario yields exactly 5 slices. -/
theorem split_order_quantity_conservation :
    (∀ (o : LiveOrder) (current_price : ℚ) (counter : ℕ),
      should_split_order o current_price = true →
      ((split_order o current_price counter).map (fun sl => sl.quantity)).sum =
        o.quantity ∧
      (split_order o current_price counter).length ≤ 5) ∧
    (split_order ⟨1, "SPY", "SELL", 50, "MARKET", none, ""⟩ 50000 0).length = 5 := by
  constructor
  · intro o current_price counter hsplit
    have hval : max_single_order_usd < o.quantity * current_price := by
      simp only [should_split_order] at hsplit
      by_cases hp : current_price ≤ 0
      · rw [if_pos hp] at hsplit; cases hsplit
      · rw [if_neg hp] at hsplit; exact of_decide_eq_true hsplit
    have hratio1 : (1 : ℚ) < o.quantity * current_price / max_single_order_usd := by
      rw [lt_div_iff₀ (by norm_num [max_single_order_usd])]
      linarith
    have hfl : (1 : ℤ) ≤ ⌊o.quantity * current_price / max_single_order_usd⌋ := by
      rw [Int.le_floor]; exact_mod_cast le_of_lt hratio1
    have hpy : pyInt (o.quantity * current_price / max_single_order_usd) =
        ⌊o.quantity * current_price / max_single_order_usd⌋ := by
      rw [pyInt, if_neg (by linarith)]
    have hc2 : 2 ≤ split_slice_count o current_price := by
      unfold split_slice_count slice_count_cap
      rw [hpy]
      omega
    have hc5 : split_slice_count o current_price ≤ 5 := by
      unfold split_slice_count slice_count_cap
      omega
    constructor
    · have hne : ((split_slice_count o current_price : ℤ) : ℚ) ≠ 0 :=
        Int.cast_ne_zero.mpr (by omega)
      have hlen : ((split_order o current_price counter).map
          (fun sl => sl.quantity)) =
          List.replicate (split_slice_count o current_price).toNat
            (o.quantity / (split_slice_count o current_price)) := by
        rw [List.eq_replicate_iff]
        refine ⟨by simp [split_order], ?_⟩
        intro q hq
        simp only [split_order, List.map_map, List.mem_map, List.mem_range] at hq
        obtain ⟨i, _, rfl⟩ := hq
        rfl
      rw [hlen, List.sum_replicate, nsmul_eq_mul]
      rw [show ((split_slice_count o current_price).toNat : ℚ) =
          ((split_slice_count o current_price : ℤ) : ℚ) by
        exact_mod_cast congrArg (Int.cast : ℤ → ℚ) (Int.toNat_of_nonneg (by omega))]
      field_simp
    · simp only [split_order, List.length_map, List.length_range]
      omega
  · simp only [split_order, List.length_map, List.length_range]
    norm_num [split_slice_count, pyInt, max_single_order_usd, slice_count_cap]
    decide

/-- C6 witness: quantity conservation and the slice cap at the
$2,500,000-notional scenario order. -/
theorem split_order_quantity_conservation_witness :
    ((split_order ⟨1, "SPY", "SELL", 50, "MARKET", none, ""⟩ 50000 0).map
      (fun sl => sl.quantity)).sum = 50 ∧
    (split_order ⟨1, "SPY", "SELL", 50, "MARKET", none, ""⟩ 50000 0).length ≤ 5 :=
  split_order_quantity_conservation.1 ⟨1, "SPY", "SELL", 50, "MARKET", none, ""⟩
    50000 0 (by norm_num [should_split_order, max_single_order_usd])

/-! ## Paper trading data model (src/paper_trading/models.py) -/

/-- `dict.get(k, d)` on a numeric-valued dict modelled as an association
list. -/
def lookupD (m : List (String × ℚ)) (k : String) (d : ℚ) : ℚ :=
  ((m.find? (fun kv => kv.1 == k)).map (fun kv => kv.2)).getD d

/-- `d[k] = v` on an insertion-ordered dict: replace in place if the key
exists, else append. -/
def setKey (m : List (String × ℚ)) (k : String) (v : ℚ) : List (String × ℚ) :=
  if m.any (fun kv => kv.1 == k) then
    m.map (fun kv => if kv.1 == k then (k, v) else kv)
  else m ++ [(k, v)]

/-- `d.pop(k, None)`. -/
def eraseKey (m : List (String × ℚ)) (k : String) : List (String × ℚ) :=
  m.filter (fun kv => !(kv.1 == k))

/-- `PaperOrder` dataclass (ids are abstract counters, execution times an
abstract integer clock). -/
structure PaperOrder where
  order_id : ℕ
  symbol : String
  side : String
  quantity : ℚ
  order_type : String
  limit_price : Option ℚ
  expected_slippage : ℚ
  expected_execution_time : ℤ

/-- `PaperExecutionResult` dataclass. -/
structure PaperExecutionResult where
  order_id : ℕ
  symbol : String
  side : String
  requested_quantity : ℚ
  fill_quantity : ℚ
  fill_price : ℚ
  slippage_actual : ℚ
  status : String
  commission : ℚ

/-- `PaperPortfolio` dataclass. -/
structure PaperPortfolio where
  initial_capital : ℚ
  cash : ℚ
  positions : List (String × ℚ)
  cost_basis : List (String × ℚ)
  nav : ℚ
  peak_nav : ℚ
  weights : List (String × ℚ)
  realized_pnl : ℚ
  unrealized_pnl : ℚ

/-- `PaperPortfolio.calculate_drawdown`. -/
def PaperPortfolio.calculate_drawdown (p : PaperPortfolio) : ℚ :=
  if p.peak_nav = 0 then 0 else (p.peak_nav - p.nav) / p.peak_nav

/-- `PaperPortfolio.update_peak_nav`. -/
def PaperPortfolio.update_peak_nav (p : PaperPortfolio) : PaperPortfolio :=
  if p.nav > p.peak_nav then { p with peak_nav := p.nav } else p

/-! ## Paper trading engine (src/paper_trading/engine.py) -/

/-- `SlippageConfig` dataclass. -/
structure SlippageConfig where
  base_slippage_bps : ℚ
  volatility_multiplier : ℚ
  size_impact_threshold : ℚ
  size_impact_bps_per_10k : ℚ

/-- `SlippageConfig()` defaults. -/
def DEFAULT_SLIPPAGE_CONFIG : SlippageConfig :=
  { base_slippage_bps := 5
    volatility_multiplier := 1/10
    size_impact_threshold := 10000
    size_impact_bps_per_10k := 2 }

/-- `DelayConfig` dataclass. -/
structure DelayConfig where
  min_delay_seconds : ℤ
  max_delay_seconds : ℤ
  market_order_delay : ℤ
  limit_order_delay : ℤ
  twap_interval_minutes : ℤ

/-- `DelayConfig()` defaults. -/
def DEFAULT_DELAY_CONFIG : DelayConfig :=
  { min_delay_seconds := 60
    max_delay_seconds := 1800
    market_order_delay := 60
    limit_order_delay := 300
    twap_interval_minutes := 15 }

/-- `_calculate_slippage` (the volatility for the symbol is passed in place of
`get_current_volatility`). -/
def calculate_slippage (config : SlippageConfig)
    (volatility quantity estimated_price : ℚ) : ℚ :=
  let base := config.base_slippage_bps / 10000
  let vol_impact := volatility * config.volatility_multiplier
  let order_value := |quantity * estimated_price|
  let size_impact :=
    if order_value > config.size_impact_threshold then
      ((order_value - config.size_impact_threshold) / 10000) *
        config.size_impact_bps_per_10k / 10000
    else 0
  base + vol_impact + size_impact

/-- `_calculate_delay`. -/
def calculate_delay (config : DelayConfig) (order_type : String) : ℤ :=
  if order_type = "MARKET" then config.market_order_delay
  else if order_type = "LIMIT" then config.limit_order_delay
  else if order_type = "TWAP" then config.twap_interval_minutes * 60
  else config.min_delay_seconds

/-- The effective reference price used by `_execute_single_order`: the current
price, or — when it is zero — the order's limit price if truthy, else 0 (the
rejection path). -/
def resolved_price (priceOf : String → ℚ) (o : PaperOrder) : ℚ :=
  if priceOf o.symbol = 0 then o.limit_price.getD 0 else priceOf o.symbol

/-- The BUY branch of the portfolio mutation in `_execute_single_order`:
deduct cash, grow the position and set the weighted-average cost basis. -/
def apply_buy (sym : String) (fill_quantity fill_price commission : ℚ)
    (p : PaperPortfolio) : PaperPortfolio :=
  let current_position := lookupD p.positions sym 0
  let current_cost := lookupD p.cost_basis sym 0 * current_position
  let new_cost := fill_quantity * fill_price
  let new_position := current_position + fill_quantity
  { p with
      cash := p.cash - (fill_quantity * fill_price + commission)
      positions := setKey p.positions sym new_position
      cost_basis := setKey p.cost_basis sym
        (if new_position > 0 then (current_cost + new_cost) / new_position
         else 0) }

/-- The SELL branch of the portfolio mutation in `_execute_single_order`:
add the proceeds net of commission, recognize realized P&L, shrink (or remove)
the position. -/
def apply_sell (sym : String) (fill_quantity fill_price commission : ℚ)
    (p : PaperPortfolio) : PaperPortfolio :=
  let cost_basis := lookupD p.cost_basis sym 0
  let realized_pnl := (fill_price - cost_basis) * fill_quantity
  let current_position := lookupD p.positions sym 0
  let new_position := current_position - fill_quantity
  if new_position ≤ 0 then
    { p with
        cash := p.cash + (fill_quantity * fill_price - commission)
        realized_pnl := p.realized_pnl + realized_pnl
        positions := eraseKey p.positions sym
        cost_basis := eraseKey p.cost_basis sym }
  else
    { p with
        cash := p.cash + (fill_quantity * fill_price - commission)
        realized_pnl := p.realized_pnl + realized_pnl
        positions := setKey p.positions sym new_position }

/-- `_execute_single_order`: computes the slipped fill price, clamps the fill
quantity to available cash (buy) or position (sell), charges commission and
mutates the portfolio once; returns the execution result and the updated
portfolio. The rejection path (no usable price) leaves the portfolio
untouched. -/
def execute_single_order (commission_rate : ℚ) (priceOf : String → ℚ)
    (order : PaperOrder) (p : PaperPortfolio) :
    PaperExecutionResult × PaperPortfolio :=
  if priceOf order.symbol = 0 ∧ order.limit_price.getD 0 = 0 then
    ({ order_id := order.order_id
       symbol := order.symbol
       side := order.side
       requested_quantity := order.quantity
       fill_quantity := 0
       fill_price := 0
       slippage_actual := 0
       status := "REJECTED"
       commission := 0 }, p)
  else
    let current_price := resolved_price priceOf order
    let fill_price :=
      if order.side = "BUY" then current_price * (1 + order.expected_slippage)
      else current_price * (1 - order.expected_slippage)
    let fill_quantity :=
      if order.side = "BUY" then
        let required_cash := order.quantity * fill_price * (1 + commission_rate)
        if required_cash > p.cash then p.cash / (fill_price * (1 + commission_rate))
        else order.quantity
      else min order.quantity (lookupD p.positions order.symbol 0)
    let commission := fill_quantity * fill_price * commission_rate
    let p' :=
      if order.side = "BUY" then
        apply_buy order.symbol fill_quantity fill_price commission p
      else
        apply_sell order.symbol fill_quantity fill_price commission p
    ({ order_id := order.order_id
       symbol := order.symbol
       side := order.side
       requested_quantity := order.quantity
       fill_quantity := fill_quantity
       fill_price := fill_price
       slippage_actual := order.expected_slippage
       status := if fill_quantity = order.quantity then "FILLED" else "PARTIAL"
       commission := commission }, p')

/-- `update_portfolio_nav`: marks positions to market against the `prices`
dict (falling back to the engine price cache `cache`), refreshes unrealized
P&L, NAV and the peak-NAV high-water mark, and recomputes weights when NAV is
positive. -/
def update_portfolio_nav (prices : String → Option ℚ) (cache : String → ℚ)
    (p : PaperPortfolio) : PaperPortfolio :=
  let priceFor : String → ℚ := fun sym => (prices sym).getD (cache sym)
  let position_value := (p.positions.map (fun kv => kv.2 * priceFor kv.1)).sum
  let unrealized_pnl :=
    (p.positions.map (fun kv =>
      (priceFor kv.1 - lookupD p.cost_basis kv.1 0) * kv.2)).sum
  let p1 : PaperPortfolio := { p with unrealized_pnl := unrealized_pnl
                                      nav := p.cash + position_value }
  let p2 : PaperPortfolio := p1.update_peak_nav
  if p2.nav > 0 then
    { p2 with weights :=
        (p2.positions.map (fun kv =>
          (kv.1, kv.2 * ((prices kv.1).getD 0) / p2.nav))) ++
        [("CASH", p2.cash / p2.nav)] }
  else p2

lemma calculate_slippage_nonneg (config : SlippageConfig)
    (volatility quantity estimated_price : ℚ)
    (hb : 0 ≤ config.base_slippage_bps)
    (hm : 0 ≤ config.volatility_multiplier)
    (hs : 0 ≤ config.size_impact_bps_per_10k)
    (hv : 0 ≤ volatility) :
    0 ≤ calculate_slippage config volatility quantity estimated_price := by
  unfold calculate_slippage
  have h1 : (0 : ℚ) ≤ config.base_slippage_bps / 10000 := by positivity
  have h2 : (0 : ℚ) ≤ volatility * config.volatility_multiplier :=
    mul_nonneg hv hm
  have h3 : (0 : ℚ) ≤
      (if |quantity * estimated_price| > config.size_impact_threshold then
        ((|quantity * estimated_price| - config.size_impact_threshold) / 10000) *
          config.size_impact_bps_per_10k / 10000
      else 0) := by
    split
    · next h =>
      apply div_nonneg _ (by norm_num)
      exact mul_nonneg (div_nonneg (sub_nonneg.mpr (le_of_lt h)) (by norm_num)) hs
    · exact le_refl 0
  linarith

lemma execute_single_order_fill_price (commission_rate : ℚ)
    (priceOf : String → ℚ) (order : PaperOrder) (p : PaperPortfolio) :
    (execute_single_order commission_rate priceOf order p).1.fill_price =
      if priceOf order.symbol = 0 ∧ order.limit_price.getD 0 = 0 then 0
      else if order.side = "BUY" then
        resolved_price priceOf order * (1 + order.expected_slippage)
      else resolved_price priceOf order * (1 - order.expected_slippage) := by
  unfold execute_single_order
  split
  · rfl
  · rfl

/-- C5: for every executed paper order, under non-negative slippage
configuration parameters and non-negative volatility (with the order's
expected slippage computed by `_calculate_slippage`), and non-negative
reference prices, the fill price returned by `_execute_single_order` is at
least the reference price for a BUY and at most the reference price for a
SELL. -/
theorem fill_price_slippage_direction (config : SlippageConfig)
    (volatility estimated_price commission_rate : ℚ) (priceOf : String → ℚ)
    (order : PaperOrder) (p : PaperPortfolio)
    (hb : 0 ≤ config.base_slippage_bps)
    (hm : 0 ≤ config.volatility_multiplier)
    (hs : 0 ≤ config.size_impact_bps_per_10k)
    (hv : 0 ≤ volatility)
    (hslip : order.expected_slippage =
      calculate_slippage config volatility order.quantity estimated_price)
    (hp : 0 ≤ priceOf order.symbol)
    (hl : 0 ≤ order.limit_price.getD 0) :
    (order.side = "BUY" →
      resolved_price priceOf order ≤
        (execute_single_order commission_rate priceOf order p).1.fill_price) ∧
    (order.side = "SELL" →
      (execute_single_order commission_rate priceOf order p).1.fill_price ≤
        resolved_price priceOf order) := by
  have hs0 : 0 ≤ order.expected_slippage := by
    rw [hslip]
    exact calculate_slippage_nonneg config volatility order.quantity
      estimated_price hb hm hs hv
  have hrp : 0 ≤ resolved_price priceOf order := by
    unfold resolved_price
    split <;> assumption
  rw [execute_single_order_fill_price]
  by_cases hrej : priceOf order.symbol = 0 ∧ order.limit_price.getD 0 = 0
  · have hrp0 : resolved_price priceOf order = 0 := by
      unfold resolved_price
      rw [if_pos hrej.1]
      exact hrej.2
    rw [if_pos hrej, hrp0]
    exact ⟨fun _ => le_refl 0, fun _ => le_refl 0⟩
  · rw [if_neg hrej]
    constructor
    · intro hside
      rw [if_pos hside]
      nlinarith [mul_nonneg hrp hs0]
    · intro hside
      rw [if_neg (by rw [hside]; decide)]
      nlinarith [mul_nonneg hrp hs0]

/-- The engine's starting portfolio (`PaperTradingEngine.__init__`). -/
def initPortfolio (initial_capital : ℚ) : PaperPortfolio :=
  { initial_capital := initial_capital
    cash := initial_capital
    positions := []
    cost_basis := []
    nav := initial_capital
    peak_nav := initial_capital
    weights := []
    realized_pnl := 0
    unrealized_pnl := 0 }

/-- A concrete BUY order with slippage computed under the shipped default
slippage configuration at 60% volatility. -/
def c5Order : PaperOrder :=
  { order_id := 1
    symbol := "SPY"
    side := "BUY"
    quantity := 10
    order_type := "MARKET"
    limit_price := none
    expected_slippage := calculate_slippage DEFAULT_SLIPPAGE_CONFIG (6/10) 10 100
    expected_execution_time := 0 }

/-- C5 witness: a concrete BUY fills at or above the reference price. -/
theorem fill_price_slippage_direction_witness :
    resolved_price (fun _ => 100) c5Order ≤
      (execute_single_order (1/1000) (fun _ => 100) c5Order
        (initPortfolio 100000)).1.fill_price :=
  (fill_price_slippage_direction DEFAULT_SLIPPAGE_CONFIG (6/10) 100 (1/1000)
    (fun _ => 100) c5Order (initPortfolio 100000)
    (by norm_num [DEFAULT_SLIPPAGE_CONFIG])
    (by norm_num [DEFAULT_SLIPPAGE_CONFIG])
    (by norm_num [DEFAULT_SLIPPAGE_CONFIG])
    (by norm_num)
    (by rfl)
    (by norm_num [c5Order])
    (by norm_num [c5Order])).1 rfl

/-- The paper-portfolio well-formedness invariant: non-negative cash, no short
positions, NAV non-negative and dominated by the peak-NAV high-water mark. -/
def PortfolioInv (p : PaperPortfolio) : Prop :=
  0 ≤ p.cash ∧ (∀ kv ∈ p.positions, 0 ≤ kv.2) ∧ 0 ≤ p.nav ∧ p.nav ≤ p.peak_nav

lemma lookupD_nonneg (m : List (String × ℚ)) (k : String) (d : ℚ)
    (h : ∀ kv ∈ m, 0 ≤ kv.2) (hd : 0 ≤ d) : 0 ≤ lookupD m k d := by
  unfold lookupD
  cases hf : m.find? (fun kv => kv.1 == k) with
  | none => simpa using hd
  | some kv => simpa using h kv (List.mem_of_find?_eq_some hf)

lemma setKey_nonneg (m : List (String × ℚ)) (k : String) (v : ℚ)
    (h : ∀ kv ∈ m, 0 ≤ kv.2) (hv : 0 ≤ v) :
    ∀ kv ∈ setKey m k v, 0 ≤ kv.2 := by
  intro kv hkv
  unfold setKey at hkv
  split at hkv
  · obtain ⟨kv0, hkv0, rfl⟩ := List.mem_map.mp hkv
    split
    · exact hv
    · exact h kv0 hkv0
  · rcases List.mem_append.mp hkv with h1 | h1
    · exact h kv h1
    · rw [List.mem_singleton.mp h1]
      exact hv

lemma eraseKey_nonneg (m : List (String × ℚ)) (k : String)
    (h : ∀ kv ∈ m, 0 ≤ kv.2) :
    ∀ kv ∈ eraseKey m k, 0 ≤ kv.2 :=
  fun kv hkv => h kv (List.mem_of_mem_filter hkv)

lemma apply_buy_inv (sym : String) (fill_quantity fill_price commission : ℚ)
    (p : PaperPortfolio)
    (hcash : fill_quantity * fill_price + commission ≤ p.cash)
    (hfq : 0 ≤ fill_quantity)
    (hInv : PortfolioInv p) :
    PortfolioInv (apply_buy sym fill_quantity fill_price commission p) ∧
    (apply_buy sym fill_quantity fill_price commission p).nav = p.nav ∧
    (apply_buy sym fill_quantity fill_price commission p).peak_nav = p.peak_nav := by
  obtain ⟨hc, hpos, hnav, hpk⟩ := hInv
  refine ⟨⟨by simpa [apply_buy] using hcash, ?_, hnav, hpk⟩, rfl, rfl⟩
  show ∀ kv ∈ setKey p.positions sym _, 0 ≤ kv.2
  exact setKey_nonneg _ _ _ hpos
    (add_nonneg (lookupD_nonneg _ _ _ hpos (le_refl 0)) hfq)

lemma apply_sell_inv (sym : String) (fill_quantity fill_price commission : ℚ)
    (p : PaperPortfolio)
    (hcash : 0 ≤ fill_quantity * fill_price - commission)
    (hInv : PortfolioInv p) :
    PortfolioInv (apply_sell sym fill_quantity fill_price commission p) ∧
    (apply_sell sym fill_quantity fill_price commission p).nav = p.nav ∧
    (apply_sell sym fill_quantity fill_price commission p).peak_nav = p.peak_nav := by
  obtain ⟨hc, hpos, hnav, hpk⟩ := hInv
  unfold apply_sell
  dsimp only
  split
  · refine ⟨⟨?_, eraseKey_nonneg _ _ hpos, hnav, hpk⟩, rfl, rfl⟩
    show 0 ≤ p.cash + (fill_quantity * fill_price - commission)
    linarith
  · next hgt =>
    refine ⟨⟨?_, ?_, hnav, hpk⟩, rfl, rfl⟩
    · show 0 ≤ p.cash + (fill_quantity * fill_price - commission)
      linarith
    · exact setKey_nonneg _ _ _ hpos (le_of_lt (lt_of_not_le hgt))

lemma execute_single_order_portfolio (commission_rate : ℚ)
    (priceOf : String → ℚ) (order : PaperOrder) (p : PaperPortfolio) :
    (execute_single_order commission_rate priceOf order p).2 =
      if priceOf order.symbol = 0 ∧ order.limit_price.getD 0 = 0 then p
      else
        let fill_price :=
          if order.side = "BUY" then
            resolved_price priceOf order * (1 + order.expected_slippage)
          else resolved_price priceOf order * (1 - order.expected_slippage)
        let fill_quantity :=
          if order.side = "BUY" then
            if order.quantity * fill_price * (1 + commission_rate) > p.cash then
              p.cash / (fill_price * (1 + commission_rate))
            else order.quantity
          else min order.quantity (lookupD p.positions order.symbol 0)
        let commission := fill_quantity * fill_price * commission_rate
        if order.side = "BUY" then
          apply_buy order.symbol fill_quantity fill_price commission p
        else
          apply_sell order.symbol fill_quantity fill_price commission p := by
  unfold execute_single_order
  split
  · rfl
  · rfl

lemma update_portfolio_nav_fields (prices : String → Option ℚ)
    (cache : String → ℚ) (p : PaperPortfolio) :
    (update_portfolio_nav prices cache p).cash = p.cash ∧
    (update_portfolio_nav prices cache p).positions = p.positions ∧
    (update_portfolio_nav prices cache p).nav =
      p.cash + (p.positions.map
        (fun kv => kv.2 * ((prices kv.1).getD (cache kv.1)))).sum ∧
    (update_portfolio_nav prices cache p).peak_nav =
      max p.peak_nav (p.cash + (p.positions.map
        (fun kv => kv.2 * ((prices kv.1).getD (cache kv.1)))).sum) := by
  unfold update_portfolio_nav PaperPortfolio.update_peak_nav
  dsimp only
  split
  · next hlt =>
    split
    · exact ⟨rfl, rfl, rfl, (max_eq_right (le_of_lt hlt)).symm⟩
    · exact ⟨rfl, rfl, rfl, (max_eq_right (le_of_lt hlt)).symm⟩
  · next hge =>
    split
    · exact ⟨rfl, rfl, rfl, (max_eq_left (not_lt.mp hge)).symm⟩
    · exact ⟨rfl, rfl, rfl, (max_eq_left (not_lt.mp hge)).symm⟩

/-- C7: the paper-portfolio invariants around every portfolio-mutating
operation, under well-formed market data (non-negative prices, slippage and
commission between 0 and 1, non-negative order quantity):
order execution (`_execute_single_order`) preserves the invariant and leaves
`nav`/`peak_nav` untouched; NAV mark-to-market (`update_portfolio_nav`)
preserves the invariant and never decreases `peak_nav` (there is no reset
path); and the invariant forces `0 ≤ calculate_drawdown() ≤ 1` and
`peak_nav ≥ nav`. -/
theorem paper_portfolio_invariants :
    (∀ (commission_rate : ℚ) (priceOf : String → ℚ) (order : PaperOrder)
      (p : PaperPortfolio),
      0 ≤ commission_rate → commission_rate ≤ 1 →
      0 ≤ priceOf order.symbol → 0 ≤ order.limit_price.getD 0 →
      0 ≤ order.expected_slippage → order.expected_slippage ≤ 1 →
      0 ≤ order.quantity →
      PortfolioInv p →
      PortfolioInv (execute_single_order commission_rate priceOf order p).2 ∧
      (execute_single_order commission_rate priceOf order p).2.nav = p.nav ∧
      (execute_single_order commission_rate priceOf order p).2.peak_nav =
        p.peak_nav) ∧
    (∀ (prices : String → Option ℚ) (cache : String → ℚ) (p : PaperPortfolio),
      (∀ sym, 0 ≤ (prices sym).getD (cache sym)) →
      PortfolioInv p →
      PortfolioInv (update_portfolio_nav prices cache p) ∧
      p.peak_nav ≤ (update_portfolio_nav prices cache p).peak_nav) ∧
    (∀ p : PaperPortfolio, PortfolioInv p →
      0 ≤ p.calculate_drawdown ∧ p.calculate_drawdown ≤ 1 ∧
      p.nav ≤ p.peak_nav) := by
  refine ⟨?_, ?_, ?_⟩
  · intro r priceOf order p hr0 hr1 hp hl hs0 hs1 hq hInv
    rw [execute_single_order_portfolio]
    by_cases hrej : priceOf order.symbol = 0 ∧ order.limit_price.getD 0 = 0
    · rw [if_pos hrej]
      exact ⟨hInv, rfl, rfl⟩
    · rw [if_neg hrej]
      have hrp : 0 ≤ resolved_price priceOf order := by
        unfold resolved_price
        split <;> assumption
      by_cases hbuy : order.side = "BUY"
      · simp only [hbuy, if_pos rfl, if_true]
        set fp := resolved_price priceOf order * (1 + order.expected_slippage)
          with hfp_def
        have hfp : 0 ≤ fp := mul_nonneg hrp (by linarith)
        have hfpr : 0 ≤ fp * (1 + r) := mul_nonneg hfp (by linarith)
        by_cases hclamp : order.quantity * fp * (1 + r) > p.cash
        · rw [if_pos hclamp]
          set fq := p.cash / (fp * (1 + r)) with hfq_def
          have hfq : 0 ≤ fq := div_nonneg hInv.1 hfpr
          apply apply_buy_inv
          · by_cases hz : fp * (1 + r) = 0
            · rw [hfq_def, hz]
              simp [hInv.1]
            · have : fq * fp + fq * fp * r = fq * (fp * (1 + r)) := by ring
              rw [this, hfq_def, div_mul_cancel₀ _ hz]
          · exact hfq
          · exact hInv
        · rw [if_neg hclamp]
          apply apply_buy_inv
          · have hreq : order.quantity * fp * (1 + r) ≤ p.cash := not_lt.mp hclamp
            nlinarith
          · exact hq
          · exact hInv
      · simp only [if_neg hbuy]
        set fp := resolved_price priceOf order * (1 - order.expected_slippage)
          with hfp_def
        have hfp : 0 ≤ fp := mul_nonneg hrp (by linarith)
        set fq := min order.quantity (lookupD p.positions order.symbol 0)
          with hfq_def
        have hfq : 0 ≤ fq :=
          le_min hq (lookupD_nonneg _ _ _ hInv.2.1 (le_refl 0))
        apply apply_sell_inv
        · nlinarith [mul_nonneg hfq hfp]
        · exact hInv
  · intro prices cache p hpr hInv
    obtain ⟨hc, hpos, hnav, hpk⟩ := hInv
    obtain ⟨hcash, hposs, hnav', hpk'⟩ := update_portfolio_nav_fields prices cache p
    have hsum : 0 ≤ (p.positions.map
        (fun kv => kv.2 * ((prices kv.1).getD (cache kv.1)))).sum := by
      apply List.sum_nonneg
      intro x hx
      obtain ⟨kv, hkv, rfl⟩ := List.mem_map.mp hx
      exact mul_nonneg (hpos kv hkv) (hpr kv.1)
    refine ⟨⟨?_, ?_, ?_, ?_⟩, ?_⟩
    · rw [hcash]; exact hc
    · rw [hposs]; exact hpos
    · rw [hnav']; positivity
    · rw [hnav', hpk']; exact le_max_right _ _
    · rw [hpk']; exact le_max_left _ _
  · intro p hInv
    obtain ⟨hc, hpos, hnav, hpk⟩ := hInv
    unfold PaperPortfolio.calculate_drawdown
    split
    · exact ⟨le_refl 0, by norm_num, hpk⟩
    · next hpk0 =>
      have hpkpos : 0 < p.peak_nav := lt_of_le_of_ne (le_trans hnav hpk) (Ne.symm hpk0)
      refine ⟨div_nonneg (by linarith) (le_of_lt hpkpos), ?_, hpk⟩
      rw [div_le_one hpkpos]
      linarith

/-- C7 witness: the three parts applied at a concrete freshly initialized
portfolio: executing a BUY of `c5Order` at price 100, marking to market at
price 120, and the drawdown bounds. -/
theorem paper_portfolio_invariants_witness :
    PortfolioInv (execute_single_order (1/1000) (fun _ => 100) c5Order
      (initPortfolio 100000)).2 ∧
    PortfolioInv (update_portfolio_nav (fun _ => some 120) (fun _ => 0)
      (initPortfolio 100000)) ∧
    0 ≤ (initPortfolio 100000).calculate_drawdown ∧
    (initPortfolio 100000).calculate_drawdown ≤ 1 := by
  have hInv : PortfolioInv (initPortfolio 100000) := by
    refine ⟨by norm_num [initPortfolio], ?_, by norm_num [initPortfolio],
      by norm_num [initPortfolio]⟩
    intro kv hkv
    simp [initPortfolio] at hkv
  refine ⟨?_, ?_, ?_⟩
  · exact (paper_portfolio_invariants.1 (1/1000) (fun _ => 100) c5Order
      (initPortfolio 100000) (by norm_num) (by norm_num)
      (by norm_num [c5Order]) (by norm_num [c5Order])
      (by
        show (0:ℚ) ≤ c5Order.expected_slippage
        rw [show c5Order.expected_slippage =
          calculate_slippage DEFAULT_SLIPPAGE_CONFIG (6/10) 10 100 from rfl]
        exact calculate_slippage_nonneg _ _ _ _ (by norm_num [DEFAULT_SLIPPAGE_CONFIG])
          (by norm_num [DEFAULT_SLIPPAGE_CONFIG])
          (by norm_num [DEFAULT_SLIPPAGE_CONFIG]) (by norm_num))
      (by norm_num [c5Order, calculate_slippage, DEFAULT_SLIPPAGE_CONFIG])
      (by norm_num [c5Order]) hInv).1
  · exact (paper_portfolio_invariants.2.1 (fun _ => some 120) (fun _ => 0)
      (initPortfolio 100000) (by intro sym; norm_num) hInv).1
  · exact ⟨(paper_portfolio_invariants.2.2 (initPortfolio 100000) hInv).1,
      (paper_portfolio_invariants.2.2 (initPortfolio 100000) hInv).2.1⟩

/-- Mutable state of a `PaperTradingEngine` instance (the price/volatility
providers are passed per call). -/
structure EngineState where
  slippage_config : SlippageConfig
  delay_config : DelayConfig
  commission_rate : ℚ
  portfolio : PaperPortfolio
  pending_orders : List PaperOrder
  executed_orders : List PaperExecutionResult
  order_counter : ℕ

/-- `PaperTradingEngine.__init__`. -/
def initEngine (initial_capital : ℚ) (slippage_config : SlippageConfig)
    (delay_config : DelayConfig) (commission_rate : ℚ) : EngineState :=
  { slippage_config := slippage_config
    delay_config := delay_config
    commission_rate := commission_rate
    portfolio := initPortfolio initial_capital
    pending_orders := []
    executed_orders := []
    order_counter := 0 }

/-- `submit_order`: validates the inputs (`None` models the raised
`ValueError`), computes expected slippage and delay, creates the order under a
fresh id from `_generate_order_id` and files it among the pending orders. -/
def submit_order (s : EngineState) (now : ℤ) (priceOf volOf : String → ℚ)
    (symbol side : String) (quantity : ℚ) (order_type : String)
    (limit_price : Option ℚ) : Option (PaperOrder × EngineState) :=
  if side ≠ "BUY" ∧ side ≠ "SELL" then none
  else if order_type ≠ "MARKET" ∧ order_type ≠ "LIMIT" ∧ order_type ≠ "TWAP" then
    none
  else if order_type = "LIMIT" ∧ limit_price = none then none
  else
    let current_price :=
      match limit_price with
      | some lp => if lp = 0 then priceOf symbol else lp
      | none => priceOf symbol
    let slippage :=
      calculate_slippage s.slippage_config (volOf symbol) quantity current_price
    let delay := calculate_delay s.delay_config order_type
    let order_counter := s.order_counter + 1
    let order : PaperOrder :=
      { order_id := order_counter
        symbol := symbol
        side := side
        quantity := quantity
        order_type := order_type
        limit_price := limit_price
        expected_slippage := slippage
        expected_execution_time := now + delay }
    some (order, { s with order_counter := order_counter
                          pending_orders := s.pending_orders ++ [order] })

/-- The engine loop body shared by `execute_pending_orders` and
`force_execute_all_pending`: execute the listed orders in order against the
evolving portfolio, collecting the results. -/
def exec_list (commission_rate : ℚ) (priceOf : String → ℚ) :
    List PaperOrder → PaperPortfolio →
    List PaperExecutionResult × PaperPortfolio
  | [], p => ([], p)
  | o :: os, p =>
    let r1 := execute_single_order commission_rate priceOf o p
    let rest := exec_list commission_rate priceOf os r1.2
    (r1.1 :: rest.1, rest.2)

/-- `execute_pending_orders`: execute exactly the due orders
(`expected_execution_time ≤ now`), append their results to the execution
history and drop them from the pending map. -/
def execute_pending_orders (s : EngineState) (now : ℤ)
    (priceOf : String → ℚ) : List PaperExecutionResult × EngineState :=
  let isDue := fun (o : PaperOrder) => decide (o.expected_execution_time ≤ now)
  let due := s.pending_orders.filter isDue
  let rest := s.pending_orders.filter (fun o => !isDue o)
  let er := exec_list s.commission_rate priceOf due s.portfolio
  (er.1, { s with portfolio := er.2
                  pending_orders := rest
                  executed_orders := s.executed_orders ++ er.1 })

/-- `force_execute_all_pending`. -/
def force_execute_all_pending (s : EngineState) (priceOf : String → ℚ) :
    List PaperExecutionResult × EngineState :=
  let er := exec_list s.commission_rate priceOf s.pending_orders s.portfolio
  (er.1, { s with portfolio := er.2
                  pending_orders := []
                  executed_orders := s.executed_orders ++ er.1 })

/-- `cancel_order`. -/
def cancel_order (s : EngineState) (order_id : ℕ) : Bool × EngineState :=
  if s.pending_orders.any (fun o => o.order_id == order_id) then
    (true, { s with pending_orders :=
      s.pending_orders.filter (fun o => !(o.order_id == order_id)) })
  else (false, s)

/-- One externally triggered operation on a `PaperTradingEngine`. -/
inductive EngineStep where
  | submit (now : ℤ) (priceOf volOf : String → ℚ) (symbol side : String)
      (quantity : ℚ) (order_type : String) (limit_price : Option ℚ)
  | execDue (now : ℤ) (priceOf : String → ℚ)
  | forceAll (priceOf : String → ℚ)
  | cancel (order_id : ℕ)

/-- Apply one operation to the engine state (a rejected submission leaves the
state unchanged). -/
def engineStep (s : EngineState) : EngineStep → EngineState
  | .submit now priceOf volOf symbol side quantity order_type limit_price =>
    match submit_order s now priceOf volOf symbol side quantity order_type
      limit_price with
    | some r => r.2
    | none => s
  | .execDue now priceOf => (execute_pending_orders s now priceOf).2
  | .forceAll priceOf => (force_execute_all_pending s priceOf).2
  | .cancel order_id => (cancel_order s order_id).2

/-- Run a sequence of operations from a starting engine state. -/
def runEngine (s : EngineState) (steps : List EngineStep) : EngineState :=
  steps.foldl engineStep s

/-- The ids of the orders currently pending. -/
abbrev pendingIds (s : EngineState) : List ℕ :=
  s.pending_orders.map (fun o => o.order_id)

/-- The ids attached to the recorded execution results (one entry per
portfolio mutation). -/
abbrev executedIds (s : EngineState) : List ℕ :=
  s.executed_orders.map (fun res => res.order_id)

/-- Engine id-bookkeeping invariant: pending ids are distinct, executed ids
are distinct, no id is both pending and executed, and every id was issued by
the counter. -/
def EngineInv (s : EngineState) : Prop :=
  (pendingIds s).Nodup ∧ (executedIds s).Nodup ∧
  (∀ i ∈ pendingIds s, i ∉ executedIds s) ∧
  (∀ i ∈ pendingIds s, i ≤ s.order_counter) ∧
  (∀ i ∈ executedIds s, i ≤ s.order_counter)

lemma execute_single_order_id (commission_rate : ℚ) (priceOf : String → ℚ)
    (order : PaperOrder) (p : PaperPortfolio) :
    (execute_single_order commission_rate priceOf order p).1.order_id =
      order.order_id := by
  unfold execute_single_order
  split
  · rfl
  · rfl

lemma exec_list_ids (commission_rate : ℚ) (priceOf : String → ℚ)
    (os : List PaperOrder) (p : PaperPortfolio) :
    ((exec_list commission_rate priceOf os p).1.map (fun res => res.order_id)) =
      os.map (fun o => o.order_id) := by
  induction os generalizing p with
  | nil => rfl
  | cons o os ih =>
    simp only [exec_list, List.map_cons, execute_single_order_id]
    rw [ih]

lemma engineInv_exec (s : EngineState) (f : PaperOrder → Bool)
    (priceOf : String → ℚ) (hInv : EngineInv s) :
    EngineInv { s with
      portfolio := (exec_list s.commission_rate priceOf
        (s.pending_orders.filter f) s.portfolio).2
      pending_orders := s.pending_orders.filter (fun o => !f o)
      executed_orders := s.executed_orders ++
        (exec_list s.commission_rate priceOf
          (s.pending_orders.filter f) s.portfolio).1 } := by
  obtain ⟨hpN, heN, hdisj, hpb, heb⟩ := hInv
  set due := s.pending_orders.filter f with hdue
  set rest := s.pending_orders.filter (fun o => !f o) with hrest
  have hperm : List.Perm (due ++ rest) s.pending_orders :=
    List.filter_append_perm f s.pending_orders
  have hperm_ids : List.Perm
      ((due.map (fun o => o.order_id)) ++ (rest.map (fun o => o.order_id)))
      (pendingIds s) := by
    simpa [List.map_append] using hperm.map (fun o => o.order_id)
  have hsplitN :
      ((due.map (fun o => o.order_id)) ++ (rest.map (fun o => o.order_id))).Nodup :=
    hperm_ids.nodup_iff.mpr hpN
  obtain ⟨hdueN, hrestN, hdr⟩ := List.nodup_append.mp hsplitN
  have hdue_sub : ∀ i ∈ due.map (fun o => o.order_id), i ∈ pendingIds s :=
    fun i hi => hperm_ids.mem_iff.mp (List.mem_append_left _ hi)
  have hrest_sub : ∀ i ∈ rest.map (fun o => o.order_id), i ∈ pendingIds s :=
    fun i hi => hperm_ids.mem_iff.mp (List.mem_append_right _ hi)
  refine ⟨?_, ?_, ?_, ?_, ?_⟩
  · exact hrestN
  · show (List.map _ (s.executed_orders ++ _)).Nodup
    rw [List.map_append, exec_list_ids]
    refine List.Nodup.append heN hdueN ?_
    intro a hae had
    exact hdisj a (hdue_sub a had) hae
  · intro i hi
    show i ∉ List.map _ (s.executed_orders ++ _)
    rw [List.map_append, exec_list_ids]
    intro hmem
    rcases List.mem_append.mp hmem with h1 | h1
    · exact hdisj i (hrest_sub i hi) h1
    · exact hdr h1 hi
  · exact fun i hi => hpb i (hrest_sub i hi)
  · intro i hi
    show i ≤ s.order_counter
    simp only [executedIds, List.map_append, exec_list_ids] at hi
    rcases List.mem_append.mp hi with h1 | h1
    · exact heb i h1
    · exact hpb i (hdue_sub i h1)

lemma engineInv_step (s : EngineState) (st : EngineStep)
    (hInv : EngineInv s) : EngineInv (engineStep s st) := by
  obtain ⟨hpN, heN, hdisj, hpb, heb⟩ := hInv
  cases st with
  | submit now priceOf volOf symbol side quantity order_type limit_price =>
    simp only [engineStep]
    split
    · next r heq =>
      unfold submit_order at heq
      split at heq
      · exact absurd heq (by simp)
      · split at heq
        · exact absurd heq (by simp)
        · split at heq
          · exact absurd heq (by simp)
          · injection heq with heq
            rw [← heq]
            refine ⟨?_, heN, ?_, ?_, ?_⟩
            · show ((s.pending_orders ++ [_]).map _).Nodup
              rw [List.map_append]
              refine List.Nodup.append hpN (List.nodup_singleton _) ?_
              intro a ha ha1
              have h1 := hpb a ha
              have h2 : a = s.order_counter + 1 := by
                simpa using ha1
              omega
            · intro i hi
              show i ∉ executedIds s
              simp only [pendingIds, List.map_append] at hi
              rcases List.mem_append.mp hi with h1 | h1
              · exact hdisj i h1
              · have h2 : i = s.order_counter + 1 := by simpa using h1
                intro hmem
                have := heb i hmem
                omega
            · intro i hi
              show i ≤ s.order_counter + 1
              simp only [pendingIds, List.map_append] at hi
              rcases List.mem_append.mp hi with h1 | h1
              · exact le_trans (hpb i h1) (by omega)
              · have h2 : i = s.order_counter + 1 := by simpa using h1
                omega
            · intro i hi
              show i ≤ s.order_counter + 1
              exact le_trans (heb i hi) (by omega)
    · exact ⟨hpN, heN, hdisj, hpb, heb⟩
  | execDue now priceOf =>
    exact engineInv_exec s _ priceOf ⟨hpN, heN, hdisj, hpb, heb⟩
  | forceAll priceOf =>
    have h := engineInv_exec s (fun _ => true) priceOf ⟨hpN, heN, hdisj, hpb, heb⟩
    simpa [engineStep, force_execute_all_pending, List.filter_true] using h
  | cancel order_id =>
    simp only [engineStep, cancel_order]
    split
    · show EngineInv { s with pending_orders :=
        s.pending_orders.filter (fun o => !(o.order_id == order_id)) }
      have hsub : ∀ i ∈ (s.pending_orders.filter
          (fun o => !(o.order_id == order_id))).map (fun o => o.order_id),
          i ∈ pendingIds s := by
        intro i hi
        obtain ⟨o, ho, rfl⟩ := List.mem_map.mp hi
        exact List.mem_map.mpr ⟨o, List.mem_of_mem_filter ho, rfl⟩
      refine ⟨?_, heN, fun i hi => hdisj i (hsub i hi),
        fun i hi => hpb i (hsub i hi), heb⟩
      have hsl : ((s.pending_orders.filter
          (fun o => !(o.order_id == order_id))).map (fun o => o.order_id)).Sublist
          (s.pending_orders.map (fun o => o.order_id)) :=
        (List.filter_sublist _).map _
      exact List.Nodup.sublist hsl hpN
    · exact ⟨hpN, heN, hdisj, hpb, heb⟩

lemma engineInv_run (s : EngineState) (steps : List EngineStep)
    (hInv : EngineInv s) : EngineInv (runEngine s steps) := by
  induction steps generalizing s with
  | nil => exact hInv
  | cons st rest ih => exact ih (engineStep s st) (engineInv_step s st hInv)

/-- C2: along any sequence of engine operations (submissions, due-order
execution passes, forced executions, cancellations) from a fresh
`PaperTradingEngine`, the recorded execution results carry pairwise-distinct
order ids — every order id is executed, and hence the portfolio mutated for
it, at most once: executed orders leave the pending map, re-running either
execution entry point cannot touch them again, and submissions always use a
fresh counter id. -/
theorem executed_order_ids_nodup (initial_capital : ℚ)
    (slippage_config : SlippageConfig) (delay_config : DelayConfig)
    (commission_rate : ℚ) (steps : List EngineStep) :
    ((runEngine (initEngine initial_capital slippage_config delay_config
      commission_rate) steps).executed_orders.map
        (fun res => res.order_id)).Nodup := by
  have hInv : EngineInv (initEngine initial_capital slippage_config
      delay_config commission_rate) := by
    refine ⟨List.nodup_nil, List.nodup_nil, ?_, ?_, ?_⟩ <;>
      intro i hi <;> simp [pendingIds, executedIds, initEngine] at hi
  exact (engineInv_run _ steps hInv).2.1

/-! ## Performance monitor (src/paper_trading/monitor.py) -/

/-- Mean of a list of daily returns (`pandas.Series.mean`). -/
def list_mean (l : List ℚ) : ℚ :=
  l.sum / l.length

/-- Sample variance with one delta degree of freedom (`pandas.Series.std`
squares to this; for fewer than two samples pandas yields NaN, handled by the
caller's guard). -/
def sample_variance (l : List ℚ) : ℚ :=
  ((l.map (fun x => (x - list_mean l) ^ 2)).sum) / ((l.length : ℚ) - 1)

/-- `Series.tail(window)`: the last `window` entries. -/
def tail_window (l : List ℚ) (window : ℕ) : List ℚ :=
  l.drop (l.length - window)

/-- `calculate_rolling_sharpe`: returns 0.0 when the recorded return history
is shorter than the window; returns 0.0 when the standard deviation is zero or
NaN (fewer than two samples); otherwise annualized mean over annualized
volatility. The square roots land in `ℝ`. -/
noncomputable def calculate_rolling_sharpe (returns_history : List ℚ)
    (window : ℕ) : ℝ :=
  if returns_history.length < window then 0
  else
    let recent_returns := tail_window returns_history window
    if recent_returns.length ≤ 1 ∨ sample_variance recent_returns = 0 then 0
    else
      ((list_mean recent_returns : ℝ) * 252) /
        (Real.sqrt (sample_variance recent_returns) * Real.sqrt 252)

/-- `Series.expanding().max()`: running maxima. -/
def expanding_max_from (acc : ℚ) : List ℚ → List ℚ
  | [] => []
  | x :: xs => max acc x :: expanding_max_from (max acc x) xs

/-- `calculate_max_drawdown`: 0.0 on an empty NAV history, else the largest
peak-to-trough fractional decline (a NAV series whose running peak is zero
would divide by zero in Python; over `ℚ` that term is 0). -/
def calculate_max_drawdown (nav_history : List ℚ) : ℚ :=
  if nav_history = [] then 0
  else
    let peak :=
      match nav_history with
      | [] => []
      | x :: xs => expanding_max_from x (x :: xs)
    let drawdown := (peak.zip nav_history).map (fun pr => (pr.1 - pr.2) / pr.1)
    (drawdown.max?).getD 0

/-- C9: both degenerate-history paths return a neutral zero instead of
raising: `calculate_rolling_sharpe` returns 0 whenever the return history is
shorter than the requested window, and `calculate_max_drawdown` returns 0 on
an empty NAV history (both are total functions — no exception path exists). -/
theorem insufficient_history_returns_zero :
    (∀ (returns_history : List ℚ) (window : ℕ),
      returns_history.length < window →
      calculate_rolling_sharpe returns_history window = 0) ∧
    calculate_max_drawdown [] = 0 := by
  constructor
  · intro returns_history window h
    unfold calculate_rolling_sharpe
    rw [if_pos h]
  · rfl

/-- C9 witness: a one-day return history against the 20-day window. -/
theorem insufficient_history_returns_zero_witness :
    calculate_rolling_sharpe [1/100] 20 = 0 :=
  insufficient_history_returns_zero.1 [1/100] 20 (by norm_num)

/-! ## Gate validation system (src/paper_trading/gates.py) -/

/-- `Phase12Gates` dataclass defaults. -/
structure Phase12Gates where
  min_trading_days : ℕ
  min_sharpe : ℚ
  max_drawdown : ℚ
  min_availability : ℚ
  required_risk_levels : List ℕ
  min_rolling_ic : ℚ

/-- `PHASE_1_2_GATES = Phase12Gates()`. -/
def PHASE_1_2_GATES : Phase12Gates :=
  { min_trading_days := 63
    min_sharpe := 1/2
    max_drawdown := 15/100
    min_availability := 999/1000
    required_risk_levels := [1, 2, 3, 4]
    min_rolling_ic := 2/100 }

/-- The state `validate_phase_1_2_gates` reads: the tracked counters of the
`GateValidationSystem` instance plus the monitor-derived quantities (rolling
Sharpe values over the three windows, max drawdown, and the 20-day IC trend —
present only when IC history exists). -/
structure GateInputs where
  trading_days_count : ℕ
  sharpe_252 : ℚ
  sharpe_60 : ℚ
  sharpe_20 : ℚ
  max_dd : ℚ
  system_uptime_seconds : ℚ
  total_seconds : ℚ
  risk_levels_triggered : List ℕ
  ic_trend_has_mean : Bool
  current_ic : ℚ

/-- `GateValidationResult` (the per-gate display strings `required`/`actual`
are elided; only the name and the `passed` flag of each entry feed control
flow). -/
structure GateValidationResult where
  gates : List (String × Bool)
  overall_passed : Bool

/-- `validate_phase_1_2_gates`: evaluates the six gates (the rolling-IC gate
only when the IC trend carries a `mean_ic`) and takes the conjunction of every
recorded `passed` flag, exactly as
`all(r.get("passed", True) for r in results.values())`. -/
def validate_phase_1_2_gates (inp : GateInputs) : GateValidationResult :=
  let gates := PHASE_1_2_GATES
  let trading_days_passed :=
    decide (inp.trading_days_count ≥ gates.min_trading_days)
  let current_sharpe :=
    if inp.sharpe_252 ≠ 0 then inp.sharpe_252
    else if inp.sharpe_60 ≠ 0 then inp.sharpe_60
    else inp.sharpe_20
  let sharpe_passed := decide (current_sharpe > gates.min_sharpe)
  let dd_passed := decide (inp.max_dd < gates.max_drawdown)
  let availability :=
    if inp.total_seconds > 0 then inp.system_uptime_seconds / inp.total_seconds
    else 1
  let availability_passed := decide (availability ≥ gates.min_availability)
  let risk_coverage_passed :=
    gates.required_risk_levels.all (fun l => inp.risk_levels_triggered.contains l)
  let base :=
    [("min_trading_days", trading_days_passed),
     ("sharpe_ratio", sharpe_passed),
     ("max_drawdown", dd_passed),
     ("system_availability", availability_passed),
     ("risk_level_coverage", risk_coverage_passed)]
  let results :=
    if inp.ic_trend_has_mean then
      base ++ [("rolling_ic", decide (inp.current_ic > gates.min_rolling_ic))]
    else base
  { gates := results
    overall_passed := results.all (fun r => r.2) }

/-- C8: for every combination of tracked gate inputs, `overall_passed` of the
result of `validate_phase_1_2_gates` is true if and only if every individual
gate entry in its gates map has `passed` true (every entry records a `passed`
flag, and the overall flag is their conjunction). -/
theorem overall_passed_iff_all_gates (inp : GateInputs) :
    (validate_phase_1_2_gates inp).overall_passed = true ↔
      ∀ g ∈ (validate_phase_1_2_gates inp).gates, g.2 = true := by
  show ((validate_phase_1_2_gates inp).gates.all (fun r => r.2)) = true ↔ _
  exact List.all_eq_true

/-- A concrete gate-input snapshot on which every gate passes. -/
def c8Inputs : GateInputs :=
  { trading_days_count := 100
    sharpe_252 := 1
    sharpe_60 := 0
    sharpe_20 := 0
    max_dd := 5/100
    system_uptime_seconds := 999
    total_seconds := 1000
    risk_levels_triggered := [1, 2, 3, 4]
    ic_trend_has_mean := false
    current_ic := 0 }

/-- C8 witness: the equivalence applied at a concrete input where every gate
passes. -/
theorem overall_passed_iff_all_gates_witness :
    (validate_phase_1_2_gates c8Inputs).overall_passed = true :=
  (overall_passed_iff_all_gates c8Inputs).mpr (by
    intro g hg
    revert hg
    norm_num [validate_phase_1_2_gates, PHASE_1_2_GATES, c8Inputs]
    rintro (rfl | rfl | rfl | rfl | rfl) <;> rfl)

end SharkQuant
